import Mathlib

/-!
Verification of the doc2json extraction core: a shallow embedding of
`src/utils/data_extractor.py` (sanitizer, tokenizer/chunker, orchestrator)
and `src/utils/schema_utils.py` (dynamic schema-to-model compiler),
with theorems settling the specification's claims about them.
-/

namespace Doc2Json

/-- Python/JSON values as handled by the extractor: `None`, booleans, numbers,
strings, lists and dicts.  Dicts are modelled as association lists in insertion
order (keys unique when produced by `json.load` / `model_dump`).  Numbers are
modelled as `Int`; no claim depends on float semantics. -/
inductive Json where
  | null
  | bool (b : Bool)
  | num (n : Int)
  | str (s : String)
  | arr (elems : List Json)
  | obj (entries : List (String × Json))

/-- Python `d.get(key)` on a dict: first matching key (keys are unique in
dicts coming from `json.load`, so first-match equals dict lookup). -/
def jget : List (String × Json) → String → Option Json
  | [], _ => none
  | (k, v) :: rest, key => if k = key then some v else jget rest key

/-- Python truthiness (`bool(x)`) for the values of `Json`. -/
def truthy : Json → Bool
  | .null => false
  | .bool b => b
  | .num n => n != 0
  | .str s => s != ""
  | .arr xs => !xs.isEmpty
  | .obj kvs => !kvs.isEmpty

/-- Characters removed by the second sanitizing step,
`re.sub(r'[\x01-\x08\x0B\x0C\x0E-\x1F\x7F]', '', s)` in `sanitize_data`. -/
def in_control_class (c : Char) : Bool :=
  ('\x01' ≤ c && c ≤ '\x08') || c = '\x0B' || c = '\x0C' ||
  ('\x0E' ≤ c && c ≤ '\x1F') || c = '\x7F'

/-- All characters removed by `sanitize_data` on strings: NUL (removed by
`data.replace('\x00', '')`) together with the control class. -/
def removed_char (c : Char) : Bool :=
  c = '\x00' || in_control_class c

/-- String step of `GenericDataExtractor.sanitize_data`
(`data_extractor.py` lines 92-95): `data.replace('\x00', '')` followed by
`re.sub(r'[\x01-\x08\x0B\x0C\x0E-\x1F\x7F]', '', sanitized)`.  Removing every
occurrence of a single character is a filter, as is the regex class removal. -/
def sanitizeString (s : String) : String :=
  let s1 : String := ⟨s.data.filter (fun c => c != '\x00')⟩
  ⟨s1.data.filter (fun c => !in_control_class c)⟩

mutual

/-- `GenericDataExtractor.sanitize_data` (`data_extractor.py` lines 88-100):
`None` is returned as is, strings are cleaned, dicts map the cleaning over
their values (keys untouched), lists map it over their items, and every other
scalar is returned unchanged. -/
def sanitize_data : Json → Json
  | .null => .null
  | .str s => .str (sanitizeString s)
  | .obj entries => .obj (sanitizeEntries entries)
  | .arr elems => .arr (sanitizeElems elems)
  | .bool b => .bool b
  | .num n => .num n

/-- List comprehension `[sanitize_data(item) for item in data]`. -/
def sanitizeElems : List Json → List Json
  | [] => []
  | x :: xs => sanitize_data x :: sanitizeElems xs

/-- Dict comprehension `{key: sanitize_data(value) for key, value in data.items()}`. -/
def sanitizeEntries : List (String × Json) → List (String × Json)
  | [] => []
  | (k, v) :: rest => (k, sanitize_data v) :: sanitizeEntries rest

end

mutual

/-- Every string value (string leaves of the value structure; dict keys are
part of the mapping structure) is free of the removed characters. -/
def noRemovedStrings : Json → Bool
  | .null => true
  | .bool _ => true
  | .num _ => true
  | .str s => s.data.all (fun c => !removed_char c)
  | .arr elems => noRemovedElems elems
  | .obj entries => noRemovedEntries entries

def noRemovedElems : List Json → Bool
  | [] => true
  | x :: xs => noRemovedStrings x && noRemovedElems xs

def noRemovedEntries : List (String × Json) → Bool
  | [] => true
  | (_, v) :: rest => noRemovedStrings v && noRemovedEntries rest

end

mutual

/-- Applies `f` to every string value of a `Json` tree, leaving dict keys,
list order and non-string scalars untouched.  Used to state what the
sanitizer's traversal preserves. -/
def mapStringValues (f : String → String) : Json → Json
  | .null => .null
  | .bool b => .bool b
  | .num n => .num n
  | .str s => .str (f s)
  | .arr elems => .arr (mapSVElems f elems)
  | .obj entries => .obj (mapSVEntries f entries)

def mapSVElems (f : String → String) : List Json → List Json
  | [] => []
  | x :: xs => mapStringValues f x :: mapSVElems f xs

def mapSVEntries (f : String → String) : List (String × Json) → List (String × Json)
  | [] => []
  | (k, v) :: rest => (k, mapStringValues f v) :: mapSVEntries f rest

end

/-- The two successive filters of `sanitizeString` amount to one filter over
the combined predicate `removed_char`. -/
theorem sanitizeString_eq_filter (s : String) :
    sanitizeString s = ⟨s.data.filter (fun c => !removed_char c)⟩ := by
  simp only [sanitizeString]
  refine congrArg String.mk ?_
  rw [List.filter_filter]
  apply List.filter_congr
  intro c _
  by_cases h : c = '\x00' <;> simp [h, removed_char]

/-- A filtered string passes the `removed_char` check. -/
theorem sanitizeString_no_removed (s : String) :
    (sanitizeString s).data.all (fun c => !removed_char c) = true := by
  rw [sanitizeString_eq_filter]
  simp only [List.all_eq_true]
  intro c hc
  exact (List.mem_filter.mp hc).2

/-- Filtering with the same predicate twice equals filtering once. -/
theorem sanitizeString_idem (s : String) :
    sanitizeString (sanitizeString s) = sanitizeString s := by
  rw [sanitizeString_eq_filter (sanitizeString s), sanitizeString_eq_filter s]
  refine congrArg String.mk ?_
  show (s.data.filter _).filter _ = _
  rw [List.filter_filter]
  apply List.filter_congr
  intro c _
  cases h : removed_char c <;> simp [h]

/-- Keeping exactly the characters the sanitizer does not remove, in their
original order (the name for the string transform the sanitizer applies). -/
def filterRemoved (s : String) : String :=
  ⟨s.data.filter (fun c => !removed_char c)⟩

mutual

theorem sanitize_eq_mapFilter : ∀ j : Json,
    sanitize_data j = mapStringValues filterRemoved j
  | .null => rfl
  | .bool _ => rfl
  | .num _ => rfl
  | .str s => by
      simp [sanitize_data, mapStringValues, filterRemoved, sanitizeString_eq_filter]
  | .arr xs => by
      simp [sanitize_data, mapStringValues, sanitizeElems_eq_mapFilter xs]
  | .obj kvs => by
      simp [sanitize_data, mapStringValues, sanitizeEntries_eq_mapFilter kvs]

theorem sanitizeElems_eq_mapFilter : ∀ xs : List Json,
    sanitizeElems xs = mapSVElems filterRemoved xs
  | [] => rfl
  | x :: xs => by
      simp [sanitizeElems, mapSVElems, sanitize_eq_mapFilter x,
        sanitizeElems_eq_mapFilter xs]

theorem sanitizeEntries_eq_mapFilter : ∀ kvs : List (String × Json),
    sanitizeEntries kvs = mapSVEntries filterRemoved kvs
  | [] => rfl
  | (k, v) :: rest => by
      simp [sanitizeEntries, mapSVEntries, sanitize_eq_mapFilter v,
        sanitizeEntries_eq_mapFilter rest]

end

mutual

theorem sanitize_noRemoved : ∀ j : Json, noRemovedStrings (sanitize_data j) = true
  | .null => rfl
  | .bool _ => rfl
  | .num _ => rfl
  | .str s => by
      simp [sanitize_data, noRemovedStrings, sanitizeString_no_removed]
  | .arr xs => by
      simp [sanitize_data, noRemovedStrings, sanitizeElems_noRemoved xs]
  | .obj kvs => by
      simp [sanitize_data, noRemovedStrings, sanitizeEntries_noRemoved kvs]

theorem sanitizeElems_noRemoved : ∀ xs : List Json,
    noRemovedElems (sanitizeElems xs) = true
  | [] => rfl
  | x :: xs => by
      simp [sanitizeElems, noRemovedElems, sanitize_noRemoved x,
        sanitizeElems_noRemoved xs]

theorem sanitizeEntries_noRemoved : ∀ kvs : List (String × Json),
    noRemovedEntries (sanitizeEntries kvs) = true
  | [] => rfl
  | (k, v) :: rest => by
      simp [sanitizeEntries, noRemovedEntries, sanitize_noRemoved v,
        sanitizeEntries_noRemoved rest]

end

mutual

theorem sanitize_data_idem_aux : ∀ j : Json,
    sanitize_data (sanitize_data j) = sanitize_data j
  | .null => rfl
  | .bool _ => rfl
  | .num _ => rfl
  | .str s => by simp [sanitize_data, sanitizeString_idem]
  | .arr xs => by simp [sanitize_data, sanitizeElems_idem_aux xs]
  | .obj kvs => by simp [sanitize_data, sanitizeEntries_idem_aux kvs]

theorem sanitizeElems_idem_aux : ∀ xs : List Json,
    sanitizeElems (sanitizeElems xs) = sanitizeElems xs
  | [] => rfl
  | x :: xs => by
      simp [sanitizeElems, sanitize_data_idem_aux x, sanitizeElems_idem_aux xs]

theorem sanitizeEntries_idem_aux : ∀ kvs : List (String × Json),
    sanitizeEntries (sanitizeEntries kvs) = sanitizeEntries kvs
  | [] => rfl
  | (k, v) :: rest => by
      simp [sanitizeEntries, sanitize_data_idem_aux v, sanitizeEntries_idem_aux rest]

end

/-- C7: for every input value, every string value in the output of
`sanitize_data` is free of NUL and of the control ranges
\x01-\x08, \x0B, \x0C, \x0E-\x1F, \x7F, and the output is the input with
exactly those characters filtered out of its string values in place: all
other characters of each string are kept in their original order, and the
non-string structure (dict keys, list order, non-string scalars) is
unchanged, as `mapStringValues filterRemoved` expresses. -/
theorem c7_sanitize_strings_clean : ∀ j : Json,
    noRemovedStrings (sanitize_data j) = true ∧
    sanitize_data j = mapStringValues filterRemoved j :=
  fun j => ⟨sanitize_noRemoved j, sanitize_eq_mapFilter j⟩

/-- C8: `sanitize_data` is idempotent — sanitizing already-sanitized data
is a no-op, for every value (string, dict, list, or other scalar). -/
theorem c8_sanitize_idempotent : ∀ j : Json,
    sanitize_data (sanitize_data j) = sanitize_data j :=
  sanitize_data_idem_aux

/-- Python slice `tokens[start:end]` for `0 ≤ start ≤ end ≤ len(tokens)`,
the only regime the chunking loop reaches (see `chunkTextLoop`). -/
def pySlice (tokens : List Nat) (start_idx end_idx : Nat) : List Nat :=
  (tokens.drop start_idx).take (end_idx - start_idx)

/-- The `while start_idx < total_tokens` loop of
`GenericDataExtractor.chunk_text` (`data_extractor.py` lines 112-120).
The loop may fail to terminate (when `token_overlap ≥ max_tokens` the window
start never advances), so it is embedded with a fuel counter; `none` models
non-termination.  Subtraction `end_idx - token_overlap` is Nat-truncated;
in the terminating regime `token_overlap < max_tokens` it never underflows,
matching Python exactly. -/
def chunkTextLoop (decode : List Nat → String) (max_tokens token_overlap : Nat)
    (tokens : List Nat) : Nat → Nat → List String → Option (List String)
  | 0, _, _ => none
  | fuel + 1, start_idx, chunks =>
    if start_idx < tokens.length then
      let end_idx := min (start_idx + max_tokens) tokens.length
      let chunks' := chunks ++ [decode (pySlice tokens start_idx end_idx)]
      if end_idx = tokens.length then some chunks'
      else chunkTextLoop decode max_tokens token_overlap tokens fuel
        (end_idx - token_overlap) chunks'
    else some chunks

/-- `GenericDataExtractor.chunk_text` (`data_extractor.py` lines 105-120).
The external tokenizer is abstracted by an `encode`/`decode` pair.  The fuel
`tokens.length + 1` suffices whenever the Python loop terminates, because
each iteration strictly advances the window start. -/
def chunk_text (encode : String → List Nat) (decode : List Nat → String)
    (max_tokens token_overlap : Nat) (text : String) : Option (List String) :=
  let tokens := encode text
  let total_tokens := tokens.length
  if max_tokens ≥ total_tokens then some [text]
  else chunkTextLoop decode max_tokens token_overlap tokens (total_tokens + 1) 0 []

/-- The `(start_idx, end_idx)` token windows the loop of `chunk_text` slices,
in order, with the same control flow and fuel as `chunkTextLoop`; the
correspondence is proved in `chunkTextLoop_eq_windows`. -/
def chunkWindows (max_tokens token_overlap total_tokens : Nat) :
    Nat → Nat → Option (List (Nat × Nat))
  | 0, _ => none
  | fuel + 1, start_idx =>
    if start_idx < total_tokens then
      let end_idx := min (start_idx + max_tokens) total_tokens
      if end_idx = total_tokens then some [(start_idx, end_idx)]
      else (chunkWindows max_tokens token_overlap total_tokens fuel
          (end_idx - token_overlap)).map (fun w => (start_idx, end_idx) :: w)
    else some []

/-- The chunk strings produced by the source loop are exactly the decoded
slices of the windows recorded by `chunkWindows`. -/
theorem chunkTextLoop_eq_windows (decode : List Nat → String)
    (max_tokens token_overlap : Nat) (tokens : List Nat) :
    ∀ (fuel start_idx : Nat) (chunks : List String),
    chunkTextLoop decode max_tokens token_overlap tokens fuel start_idx chunks =
      (chunkWindows max_tokens token_overlap tokens.length fuel start_idx).map
        (fun w => chunks ++ w.map (fun p => decode (pySlice tokens p.1 p.2))) := by
  intro fuel
  induction fuel with
  | zero => intro start_idx chunks; rfl
  | succ fuel ih =>
    intro start_idx chunks
    simp only [chunkTextLoop, chunkWindows]
    by_cases hlt : start_idx < tokens.length
    · simp only [hlt, if_true]
      by_cases hend : min (start_idx + max_tokens) tokens.length = tokens.length
      · simp [hend]
      · simp only [hend, if_false, ih]
        cases chunkWindows max_tokens token_overlap tokens.length fuel
            (min (start_idx + max_tokens) tokens.length - token_overlap) with
        | none => rfl
        | some w => simp
    · simp [hlt]

/-- Invariant analysis of the chunking loop in the regime
`token_overlap < max_tokens`: starting below the total, the loop returns a
non-empty window list whose head starts at the current index, whose windows
jointly cover every remaining token index, whose last window ends exactly at
the total, and whose consecutive windows advance by `max_tokens - token_overlap`. -/
theorem chunkWindows_props (M O T : Nat) (hO : O < M) :
    ∀ (fuel start : Nat), start < T → T - start < fuel →
    ∃ w, chunkWindows M O T fuel start = some w ∧
      (∀ a, w.head? = some a → a.1 = start) ∧
      (∀ t, start ≤ t → t < T → ∃ p ∈ w, p.1 ≤ t ∧ t < p.2) ∧
      (∀ b, w.getLast? = some b → b.2 = T) ∧
      (∀ k a b, w[k]? = some a → w[k + 1]? = some b → b.1 = a.1 + (M - O)) := by
  intro fuel
  induction fuel with
  | zero => intro start hs hf; omega
  | succ fuel ih =>
    intro start hs hf
    by_cases hend : min (start + M) T = T
    · refine ⟨[(start, min (start + M) T)], ?_, ?_, ?_, ?_, ?_⟩
      · simp [chunkWindows, hs, hend]
      · intro a ha
        simp only [List.head?_cons, Option.some.injEq] at ha
        rw [← ha]
      · intro t hst htT
        exact ⟨(start, min (start + M) T), List.mem_singleton.mpr rfl, hst, by omega⟩
      · intro b hb
        simp only [List.getLast?_singleton, Option.some.injEq] at hb
        rw [← hb, hend]
      · intro k a b ha hb
        rcases k with _ | k <;> simp at hb
    · have hMT : start + M < T := by
        rcases Nat.lt_or_ge (start + M) T with h | h
        · exact h
        · exact absurd (Nat.min_eq_right h) hend
      have hmin : min (start + M) T = start + M := Nat.min_eq_left (by omega)
      have hs' : start + M - O < T := by omega
      have hadv : start < start + M - O := by omega
      have hf' : T - (start + M - O) < fuel := by omega
      obtain ⟨w', hw', hhead', hcov', hlast', hstep'⟩ := ih (start + M - O) hs' hf'
      have hne' : w' ≠ [] := by
        intro hnil
        obtain ⟨p, hp, _⟩ := hcov' (start + M - O) (Nat.le_refl _) hs'
        simp [hnil] at hp
      refine ⟨(start, min (start + M) T) :: w', ?_, ?_, ?_, ?_, ?_⟩
      · simp only [chunkWindows, hs, if_true, hmin, hw', Option.map_some]
        rw [if_neg (by omega)]
        rfl
      · intro a ha
        simp only [List.head?_cons, Option.some.injEq] at ha
        rw [← ha]
      · intro t hst htT
        rcases Nat.lt_or_ge t (start + M) with hlt | hge
        · exact ⟨(start, min (start + M) T), List.mem_cons_self _ _, hst, by omega⟩
        · obtain ⟨p, hp, hp1, hp2⟩ := hcov' t (by omega) htT
          exact ⟨p, List.mem_cons_of_mem _ hp, hp1, hp2⟩
      · intro b hb
        rcases List.exists_cons_of_ne_nil hne' with ⟨x, xs, hxw⟩
        subst hxw
        rw [List.getLast?_cons_cons] at hb
        exact hlast' b hb
      · intro k a b ha hb
        rcases k with _ | k
        · simp only [List.getElem?_cons_zero, Option.some.injEq] at ha
          rcases List.exists_cons_of_ne_nil hne' with ⟨x, xs, hxw⟩
          subst hxw
          simp only [List.getElem?_cons_succ, List.getElem?_cons_zero,
            Option.some.injEq] at hb
          have hx : x.1 = start + M - O := hhead' x (by simp)
          rw [← ha, ← hb]
          simp only [hmin]
          omega
        · simp only [List.getElem?_cons_succ] at ha hb
          exact hstep' k a b ha hb

/-- A concrete tokenizer for witnesses: one token per character. -/
def toyEncode (s : String) : List Nat := s.data.map Char.toNat

/-- The decoder matching `toyEncode`. -/
def toyDecode (tokens : List Nat) : String := ⟨tokens.map Char.ofNat⟩

/-- C4: whenever the token count of the text is at most `max_tokens`,
`chunk_text` returns exactly one chunk, namely the whole input text
unchanged. -/
theorem c4_single_chunk (encode : String → List Nat) (decode : List Nat → String)
    (max_tokens token_overlap : Nat) (text : String)
    (h : (encode text).length ≤ max_tokens) :
    chunk_text encode decode max_tokens token_overlap text = some [text] := by
  simp [chunk_text, h]

/-- Witness for C4 at a concrete input: a two-character text with a budget
of two tokens comes back as the single chunk `["ab"]`. -/
theorem c4_single_chunk_witness :
    (toyEncode "ab").length ≤ 2 ∧
    chunk_text toyEncode toyDecode 2 1 "ab" = some ["ab"] :=
  ⟨by decide, c4_single_chunk toyEncode toyDecode 2 1 "ab" (by decide)⟩

/-- C5: for a text of `T` tokens with `T > max_tokens` and
`token_overlap < max_tokens`, the chunks returned by `chunk_text` are the
decoded slices of a window list that covers every token index in `[0, T)`
with no gap, whose final window ends exactly at `T`, and in which every
window after the first starts exactly `max_tokens - token_overlap` tokens
after the previous window's start. -/
theorem c5_window_coverage (encode : String → List Nat) (decode : List Nat → String)
    (max_tokens token_overlap : Nat) (text : String)
    (hO : token_overlap < max_tokens)
    (hT : max_tokens < (encode text).length) :
    ∃ w : List (Nat × Nat),
      chunk_text encode decode max_tokens token_overlap text =
        some (w.map (fun p => decode (pySlice (encode text) p.1 p.2))) ∧
      (∀ t, t < (encode text).length → ∃ p ∈ w, p.1 ≤ t ∧ t < p.2) ∧
      (∀ b, w.getLast? = some b → b.2 = (encode text).length) ∧
      (∀ k a b, w[k]? = some a → w[k + 1]? = some b →
        b.1 = a.1 + (max_tokens - token_overlap)) := by
  obtain ⟨w, hw, _, hcov, hlast, hstep⟩ :=
    chunkWindows_props max_tokens token_overlap (encode text).length hO
      ((encode text).length + 1) 0 (by omega) (by omega)
  refine ⟨w, ?_, fun t ht => hcov t (Nat.zero_le _) ht, hlast, hstep⟩
  simp only [chunk_text]
  rw [if_neg (by omega)]
  rw [chunkTextLoop_eq_windows, hw]
  simp

/-- Witness for C5 at a concrete input: `"abc"` with a window of 2 tokens and
overlap 1 splits into the windows `(0,2)` and `(1,3)`. -/
theorem c5_window_coverage_witness :
    1 < 2 ∧ 2 < (toyEncode "abc").length ∧
    (∃ w : List (Nat × Nat),
      chunk_text toyEncode toyDecode 2 1 "abc" =
        some (w.map (fun p => toyDecode (pySlice (toyEncode "abc") p.1 p.2))) ∧
      (∀ t, t < (toyEncode "abc").length → ∃ p ∈ w, p.1 ≤ t ∧ t < p.2) ∧
      (∀ b, w.getLast? = some b → b.2 = (toyEncode "abc").length) ∧
      (∀ k a b, w[k]? = some a → w[k + 1]? = some b → b.1 = a.1 + (2 - 1))) :=
  ⟨by decide, by decide,
    c5_window_coverage toyEncode toyDecode 2 1 "abc" (by decide) (by decide)⟩

/-- C6: for every text and every configuration with
`token_overlap < max_tokens`, the chunking loop of `chunk_text` terminates
(the fuelled embedding returns a value rather than running out). -/
theorem c6_chunk_loop_terminates (encode : String → List Nat)
    (decode : List Nat → String) (max_tokens token_overlap : Nat) (text : String)
    (hO : token_overlap < max_tokens) :
    (chunk_text encode decode max_tokens token_overlap text).isSome = true := by
  simp only [chunk_text]
  by_cases h : max_tokens ≥ (encode text).length
  · rw [if_pos h]; rfl
  · rw [if_neg h]
    obtain ⟨w, hw, -⟩ :=
      chunkWindows_props max_tokens token_overlap (encode text).length hO
        ((encode text).length + 1) 0 (by omega) (by omega)
    rw [chunkTextLoop_eq_windows, hw]
    rfl

/-- Witness for C6 at a concrete input: the loop terminates on `"abc"` with
window 2 and overlap 1. -/
theorem c6_chunk_loop_terminates_witness :
    1 < 2 ∧ (chunk_text toyEncode toyDecode 2 1 "abc").isSome = true :=
  ⟨by decide, c6_chunk_loop_terminates toyEncode toyDecode 2 1 "abc" (by decide)⟩


/-- The outcome of one call to the external model service
(`self.client.chat.completions.parse` inside `extract_structured`): either an
exception escaping the call, or a message carrying optional `refusal` and
`parsed` fields.  The `Json` of `parsed` stands for `resp.parsed.model_dump()`. -/
inductive ModelResponse where
  | exn (msg : String)
  | reply (refusal : Option String) (parsed : Option Json)

/-- A result dict of the extractor: `status` plus an optional `data` key
(`none` means the key is absent from the dict, `some .null` a key holding
Python `None`) plus `message`. -/
structure PResult where
  status : String
  data : Option Json
  message : String

/-- Python truthiness of the `resp.refusal` optional string. -/
def truthyOptStr : Option String → Bool
  | none => false
  | some s => s != ""

/-- `GenericDataExtractor.extract_structured` (`data_extractor.py` lines
190-219), with the network call abstracted as `call text previous_data`.
A truthy refusal yields a failure naming the refusal; a parsed object yields
success with the sanitized model dump; otherwise the parse failed; an
exception is returned as a failure with its message. -/
def extract_structured (call : String → Json → ModelResponse)
    (text : String) (previous_data : Json) : PResult :=
  match call text previous_data with
  | .exn msg => ⟨"failed", none, msg⟩
  | .reply refusal parsed =>
    if truthyOptStr refusal then
      ⟨"failed", none, "Refusal: " ++ refusal.getD ""⟩
    else
      match parsed with
      | some d => ⟨"success", some (sanitize_data d), "Extraction successful"⟩
      | none => ⟨"failed", none, "Failed to parse response"⟩

/-- The `for idx, chunk in enumerate(chunks, 1)` loop of
`GenericDataExtractor.process_file` (`data_extractor.py` lines 238-255),
instrumented with the number of model calls made (the second component).
On success the accumulated data is fully replaced by the chunk's data (the
`getD .null` never fires: success results always carry the `data` key); on
failure the partial-data result is returned only when the accumulated value
is truthy, otherwise the chunk's own failure result is passed through. -/
def processChunks (call : String → Json → ModelResponse) (num_chunks : Nat) :
    List String → Nat → Json → PResult × Nat
  | [], _, accumulated =>
    (⟨"success", some accumulated,
      "All " ++ toString num_chunks ++ " chunks processed"⟩, 0)
  | chunk :: rest, idx, accumulated =>
    let result := extract_structured call chunk accumulated
    if result.status = "success" then
      let rn := processChunks call num_chunks rest (idx + 1) (result.data.getD .null)
      (rn.1, rn.2 + 1)
    else if truthy accumulated then
      (⟨"failed", some accumulated,
        "Partial failure at chunk " ++ toString idx ++ "/" ++
          toString num_chunks ++ ": " ++ result.message⟩, 1)
    else (result, 1)

/-- Membership in the whitespace set of Python's `str.strip()` (ASCII
whitespace plus the Unicode space characters Python treats as whitespace). -/
def pyIsSpace (c : Char) : Bool :=
  c = ' ' || c = '\t' || c = '\n' || c = '\r' || c = '\x0B' || c = '\x0C' ||
  ('\x1C' ≤ c && c ≤ '\x1F') || c = '\x85' || c = '\xA0' ||
  c = ' ' || (' ' ≤ c && c ≤ ' ') || c = ' ' ||
  c = ' ' || c = ' ' || c = ' ' || c = '　'

/-- Python `text.strip()`: drop whitespace from both ends. -/
def pyStrip (s : String) : String :=
  ⟨((s.data.dropWhile pyIsSpace).reverse.dropWhile pyIsSpace).reverse⟩

/-- `GenericDataExtractor.process_file` (`data_extractor.py` lines 221-259).
External effects are parameters: `extracted` is the outcome of
`extract_text` (`.error` = an exception, wrapped by the outer
`except` into a failure result) and `call` the model service.  The result is
paired with the number of model calls made; `none` models a non-terminating
chunking loop.  `count_tokens` and logging have no effect on the result and
are omitted. -/
def process_file (encode : String → List Nat) (decode : List Nat → String)
    (max_tokens token_overlap : Nat) (call : String → Json → ModelResponse)
    (extracted : Except String String) : Option (PResult × Nat) :=
  match extracted with
  | .error msg => some (⟨"failed", none, msg⟩, 0)
  | .ok text =>
    if pyStrip text = "" then
      some (⟨"failed", none, "No text content found"⟩, 0)
    else
      match chunk_text encode decode max_tokens token_overlap text with
      | none => none
      | some chunks => some (processChunks call chunks.length chunks 1 .null)

/-- The accumulated data after successfully processing every chunk of a list
starting from `acc`, or `none` as soon as one chunk's result is not a
success.  Used to state hypotheses about a run's prefix. -/
def runAccum (call : String → Json → ModelResponse) :
    List String → Json → Option Json
  | [], acc => some acc
  | chunk :: rest, acc =>
    let result := extract_structured call chunk acc
    if result.status = "success" then
      runAccum call rest (result.data.getD .null)
    else none

/-- A model service used by the C1 and C10 concrete runs: chunk "ab" parses
to an empty dict, any other chunk raises an exception "boom". -/
def cxCall : String → Json → ModelResponse :=
  fun text _ => if text = "ab" then .reply none (some (.obj [])) else .exn "boom"

/-- A result of `extract_structured` that is not a success carries no
`data` key: all three failure branches build a dict without it. -/
theorem extract_structured_failed_no_data (call : String → Json → ModelResponse)
    (text : String) (prev : Json)
    (h : (extract_structured call text prev).status ≠ "success") :
    (extract_structured call text prev).data = none := by
  unfold extract_structured at *
  cases hc : call text prev with
  | exn msg => rfl
  | reply refusal parsed =>
    rw [hc] at h
    by_cases hr : truthyOptStr refusal = true
    · simp [hr]
    · simp only [Bool.not_eq_true] at hr
      cases parsed with
      | some d => simp [hr] at h
      | none => simp [hr]

/-- Processing a list whose prefix runs through successfully equals
processing the remainder from the accumulated value, with the prefix's model
calls added to the count. -/
theorem processChunks_append (call : String → Json → ModelResponse) (N : Nat) :
    ∀ (cs1 : List String) (acc acc' : Json) (rest : List String) (idx : Nat),
    runAccum call cs1 acc = some acc' →
    processChunks call N (cs1 ++ rest) idx acc =
      ((processChunks call N rest (idx + cs1.length) acc').1,
       (processChunks call N rest (idx + cs1.length) acc').2 + cs1.length) := by
  intro cs1
  induction cs1 with
  | nil =>
    intro acc acc' rest idx h
    simp only [runAccum, Option.some.injEq] at h
    subst h
    simp
  | cons c cs ih =>
    intro acc acc' rest idx h
    simp only [runAccum] at h
    by_cases hs : (extract_structured call c acc).status = "success"
    · rw [if_pos hs] at h
      have heq : idx + 1 + cs.length = idx + (cs.length + 1) := by omega
      simp only [List.cons_append, processChunks, if_pos hs, List.append_eq,
        List.length_cons]
      rw [ih _ _ _ _ h, heq]
      simp [Nat.add_assoc]
    · rw [if_neg hs] at h
      exact absurd h (by simp)

/-- C9: when the extracted text strips to the empty string (empty or
whitespace-only), `process_file` returns status "failed" with the message
"No text content found" and zero model calls are made — it short-circuits
before chunking and before any `extract_structured` invocation, as the call
count 0 for every `call` records. -/
theorem c9_no_text_short_circuit (encode : String → List Nat)
    (decode : List Nat → String) (max_tokens token_overlap : Nat)
    (call : String → Json → ModelResponse) (text : String)
    (h : pyStrip text = "") :
    process_file encode decode max_tokens token_overlap call (.ok text) =
      some (⟨"failed", none, "No text content found"⟩, 0) := by
  simp [process_file, h]

/-- Witness for C9 at a concrete input: a whitespace-only text. -/
theorem c9_no_text_short_circuit_witness :
    pyStrip " \n " = "" ∧
    process_file toyEncode toyDecode 2 1 (fun _ _ => .exn "never") (.ok " \n ") =
      some (⟨"failed", none, "No text content found"⟩, 0) :=
  ⟨by decide,
    c9_no_text_short_circuit toyEncode toyDecode 2 1 (fun _ _ => .exn "never")
      " \n " (by decide)⟩

/-- C10: when the loop reaches a failing chunk and the accumulated data from
the prior successful chunks is falsy (an empty dict, or no prior chunk — the
initial `None`), `process_file` returns that chunk's failure result
unchanged, with no `data` key at all: the partial-failure branch fires only
on truthy accumulated data, not merely because a prior chunk succeeded. -/
theorem c10_falsy_accumulated_passthrough (encode : String → List Nat)
    (decode : List Nat → String) (max_tokens token_overlap : Nat)
    (call : String → Json → ModelResponse) (text : String)
    (cs1 cs2 : List String) (c : String) (acc : Json)
    (hstrip : ¬ pyStrip text = "")
    (hchunks : chunk_text encode decode max_tokens token_overlap text =
      some (cs1 ++ c :: cs2))
    (hrun : runAccum call cs1 .null = some acc)
    (hfalsy : truthy acc = false)
    (hfail : (extract_structured call c acc).status ≠ "success") :
    process_file encode decode max_tokens token_overlap call (.ok text) =
      some (extract_structured call c acc, cs1.length + 1) ∧
    (extract_structured call c acc).data = none := by
  refine ⟨?_, extract_structured_failed_no_data call c acc hfail⟩
  simp only [process_file, if_neg hstrip, hchunks]
  rw [processChunks_append call _ cs1 .null acc (c :: cs2) 1 hrun]
  simp only [processChunks, if_neg hfail, hfalsy, Bool.false_eq_true, if_false,
    Option.some.injEq]
  rw [Nat.add_comm 1 cs1.length]

/-- Witness for C10 at a concrete input: chunk 1 succeeds with an empty dict,
chunk 2 fails; the chunk-2 failure result is returned verbatim, without a
`data` key. -/
theorem c10_falsy_accumulated_passthrough_witness :
    (¬ pyStrip "abc" = "") ∧
    chunk_text toyEncode toyDecode 2 1 "abc" = some (["ab"] ++ "bc" :: []) ∧
    runAccum cxCall ["ab"] .null = some (.obj []) ∧
    truthy (Json.obj []) = false ∧
    (extract_structured cxCall "bc" (.obj [])).status ≠ "success" ∧
    (process_file toyEncode toyDecode 2 1 cxCall (.ok "abc") =
      some (extract_structured cxCall "bc" (.obj []), 2) ∧
     (extract_structured cxCall "bc" (.obj [])).data = none) :=
  ⟨by decide, by decide, by exact rfl, by decide,
    by simp [extract_structured, cxCall],
    c10_falsy_accumulated_passthrough toyEncode toyDecode 2 1 cxCall "abc"
      ["ab"] [] "bc" (.obj []) (by decide) (by decide) (by exact rfl) (by decide)
      (by simp [extract_structured, cxCall])⟩

/-- C1 fails as stated: in a 2-chunk document whose first chunk succeeds with
an empty dict and whose second chunk fails, `process_file` returns the second
chunk's raw failure result — its `data` key is absent rather than equal to
chunk 1's accumulated data, and its message ("boom") does not name the
failing chunk index — because the partial-failure branch requires truthy
accumulated data, not merely a successful prior chunk. -/
theorem c1_counterexample :
    chunk_text toyEncode toyDecode 2 1 "abc" = some ["ab", "bc"] ∧
    runAccum cxCall ["ab"] .null = some (.obj []) ∧
    (extract_structured cxCall "bc" (.obj [])).status = "failed" ∧
    process_file toyEncode toyDecode 2 1 cxCall (.ok "abc") =
      some (⟨"failed", none, "boom"⟩, 2) ∧
    (none : Option Json) ≠ some (.obj []) ∧
    ("boom" : String) ≠ "Partial failure at chunk 2/2: boom" := by
  refine ⟨by decide, by exact rfl, by simp [extract_structured, cxCall],
    by exact rfl, by simp, by decide⟩

/-- C1 amended: with N ≥ 2 chunks, chunks 1..i-1 all successful, chunk i
failing, and the accumulated data after chunk i-1 additionally truthy
(a non-empty value), `process_file` returns status "failed", data equal to
that accumulated value, and the message "Partial failure at chunk i/N: "
followed by the failing chunk's reason, after exactly i model calls. -/
theorem c1_partial_failure_amended (encode : String → List Nat)
    (decode : List Nat → String) (max_tokens token_overlap : Nat)
    (call : String → Json → ModelResponse) (text : String)
    (cs1 cs2 : List String) (c : String) (acc : Json)
    (hstrip : ¬ pyStrip text = "")
    (hchunks : chunk_text encode decode max_tokens token_overlap text =
      some (cs1 ++ c :: cs2))
    (_hne : cs1 ≠ [])
    (hrun : runAccum call cs1 .null = some acc)
    (htruthy : truthy acc = true)
    (hfail : (extract_structured call c acc).status ≠ "success") :
    process_file encode decode max_tokens token_overlap call (.ok text) =
      some (⟨"failed", some acc,
        "Partial failure at chunk " ++ toString (cs1.length + 1) ++ "/" ++
          toString (cs1 ++ c :: cs2).length ++ ": " ++
          (extract_structured call c acc).message⟩, cs1.length + 1) := by
  simp only [process_file, if_neg hstrip, hchunks]
  rw [processChunks_append call _ cs1 .null acc (c :: cs2) 1 hrun]
  simp only [processChunks, if_neg hfail, htruthy, if_true, Option.some.injEq]
  rw [Nat.add_comm 1 cs1.length]

/-- A model service for the amended-C1 witness: chunk "ab" parses to a
non-empty dict, any other chunk raises. -/
def cxCallTruthy : String → Json → ModelResponse :=
  fun text _ =>
    if text = "ab" then .reply none (some (.obj [("k", .str "v")])) else .exn "boom"

/-- Witness for the amended C1 at a concrete input: 2 chunks, chunk 1
succeeds with non-empty data, chunk 2 fails; the result is the partial
failure naming chunk 2 of 2 with chunk 1's data, after 2 model calls. -/
theorem c1_partial_failure_amended_witness :
    (¬ pyStrip "abc" = "") ∧
    chunk_text toyEncode toyDecode 2 1 "abc" = some (["ab"] ++ "bc" :: []) ∧
    (["ab"] : List String) ≠ [] ∧
    runAccum cxCallTruthy ["ab"] .null = some (.obj [("k", .str "v")]) ∧
    truthy (Json.obj [("k", .str "v")]) = true ∧
    (extract_structured cxCallTruthy "bc" (.obj [("k", .str "v")])).status ≠ "success" ∧
    process_file toyEncode toyDecode 2 1 cxCallTruthy (.ok "abc") =
      some (⟨"failed", some (.obj [("k", .str "v")]),
        "Partial failure at chunk " ++ toString ((["ab"] : List String).length + 1) ++
          "/" ++ toString ((["ab"] ++ "bc" :: []) : List String).length ++ ": " ++
          (extract_structured cxCallTruthy "bc" (.obj [("k", .str "v")])).message⟩, 2) :=
  ⟨by decide, by decide, by decide, by exact rfl, by decide,
    by simp [extract_structured, cxCallTruthy],
    c1_partial_failure_amended toyEncode toyDecode 2 1 cxCallTruthy "abc"
      ["ab"] [] "bc" (.obj [("k", .str "v")]) (by decide) (by decide)
      (by decide) (by exact rfl) (by decide)
      (by simp [extract_structured, cxCallTruthy])⟩

/-- The Python types `DynamicModelBuilder._resolve_python_type` can produce:
scalars, `Any`, `Dict[str, Any]`, `List[...]`, and dynamically created
Pydantic models.  A model records its name, whether its config forbids extra
(undeclared) properties, and its fields as
`(name, required, description, type)` — `required` is the presence of
`Field(...)` (no default value). -/
inductive PyType where
  | str
  | int
  | float
  | bool
  | anyT
  | dictStrAny
  | list (elem : PyType)
  | model (name : String) (extra_forbid : Bool)
      (fields : List (String × Bool × Json × PyType))

/-- A value found by `jget` is structurally smaller than the dict holding it
(for the compiler's termination). -/
theorem jget_sizeOf {kvs : List (String × Json)} {key : String} {v : Json}
    (h : jget kvs key = some v) : sizeOf v < sizeOf kvs := by
  induction kvs with
  | nil => simp [jget] at h
  | cons p rest ih =>
    obtain ⟨pk, pv⟩ := p
    simp only [jget] at h
    by_cases hk : pk = key
    · rw [if_pos hk] at h
      cases h
      simp
      omega
    · rw [if_neg hk] at h
      have := ih h
      simp
      omega

/-- Python `x == "lit"` for a JSON value `x` and a string literal: true only
when `x` is that string (a non-string never equals a string in Python). -/
def jsonEqStr : Json → String → Bool
  | .str s, t => s = t
  | _, _ => false

/-- ASCII rendering of Python `str.capitalize()` (first character upper-cased,
the rest lower-cased); model names do not affect any claim. -/
def pyCapitalize (s : String) : String :=
  match s.data with
  | [] => ""
  | c :: rest => ⟨c.toUpper :: rest.map Char.toLower⟩

mutual

/-- `DynamicModelBuilder._resolve_python_type` (`schema_utils.py` lines
100-141).  `field_info.get("type", "string")` defaults a missing `type` key
to the string "string"; `"array"` recurses into `items` unless `items` is
falsy (then `List[str]`); `"object"` recurses into `properties` unless falsy
(then `Dict[str, Any]`), building a model with `extra="forbid"` and all
fields required; otherwise `mapping.get(json_type, Any)`.  `.error` models
the exceptions Python would raise: `.get` on a non-dict (AttributeError),
`.items()` on a non-dict (AttributeError), and `dict.get` with an unhashable
key (TypeError for a list- or dict-valued `type`). -/
def resolve_python_type (field_info : Json) (model_name_hint : String) :
    Except String PyType :=
  match field_info with
  | .obj kvs =>
    let json_type := (jget kvs "type").getD (.str "string")
    if jsonEqStr json_type "array" then
      if hi : truthy ((jget kvs "items").getD (.obj [])) = false then
        .ok (.list .str)
      else do
        let inner ← resolve_python_type ((jget kvs "items").getD (.obj []))
          (model_name_hint ++ "Item")
        .ok (.list inner)
    else if jsonEqStr json_type "object" then
      if hp : truthy ((jget kvs "properties").getD (.obj [])) = false then
        .ok .dictStrAny
      else
        match hnp : (jget kvs "properties").getD (.obj []) with
        | .obj props => do
            let nested_fields ← resolve_fields (model_name_hint ++ "_") props
            .ok (.model model_name_hint true nested_fields)
        | _ => .error "AttributeError: items() on a non-dict"
    else if jsonEqStr json_type "string" then .ok .str
    else if jsonEqStr json_type "integer" then .ok .int
    else if jsonEqStr json_type "number" then .ok .float
    else if jsonEqStr json_type "boolean" then .ok .bool
    else
      match json_type with
      | .arr _ => .error "TypeError: unhashable type"
      | .obj _ => .error "TypeError: unhashable type"
      | _ => .ok .anyT
  | _ => .error "AttributeError: get on a non-dict"
termination_by sizeOf field_info
decreasing_by
  · cases hjt : jget kvs "items" with
    | none => rw [hjt] at hi; simp [truthy] at hi
    | some v =>
      simp only [Option.getD_some]
      have hlt := jget_sizeOf hjt
      simp
      omega
  · cases hjt : jget kvs "properties" with
    | none =>
      rw [hjt] at hp
      exact absurd rfl hp
    | some v =>
      rw [hjt] at hnp
      simp only [Option.getD_some] at hnp
      have hlt := jget_sizeOf hjt
      subst hnp
      simp at hlt ⊢
      omega

/-- The `for n_name, n_info in nested_properties.items()` loop (and, with an
empty hint, the top-level loop of `build_model_from_schema`): each field gets
the resolved type, `Field(...)` (required), and the node's description.  A
field whose `field_info` succeeded in `resolve_python_type` is a dict, so the
description lookup's non-dict arm is unreachable. -/
def resolve_fields (hintPre : String) :
    List (String × Json) → Except String (List (String × Bool × Json × PyType))
  | [] => .ok []
  | (n_name, n_info) :: rest => do
    let n_type ← resolve_python_type n_info (hintPre ++ pyCapitalize n_name)
    let n_desc := match n_info with
      | .obj kvs => (jget kvs "description").getD (.str "")
      | _ => .str ""
    let fs ← resolve_fields hintPre rest
    .ok ((n_name, true, n_desc, n_type) :: fs)
termination_by l => sizeOf l

end

/-- `DynamicModelBuilder.build_model_from_schema` (`schema_utils.py` lines
73-94), from the parsed schema JSON onward (file location and `json.load`
are I/O outside the embedding; an exception is re-raised, hence `.error`).
Every top-level property becomes a required field and the model is created
with `ConfigDict(extra="forbid")`. -/
def build_model_from_schema (schema : Json) (model_name : String) :
    Except String PyType :=
  match schema with
  | .obj skvs =>
    match (jget skvs "properties").getD (.obj []) with
    | .obj props => do
        let fields ← resolve_fields "" props
        .ok (.model model_name true fields)
    | _ => .error "AttributeError: items() on a non-dict"
  | _ => .error "AttributeError: get on a non-dict"

mutual

/-- Every model node in a compiled descriptor forbids extra properties and
has only required fields (the strict structured-output contract), at every
nesting depth.  An open `Dict[str, Any]` is the compiler's documented
degradation for an object with no declared properties, not a model node. -/
def strictModel : PyType → Bool
  | .model _ extra_forbid fields => extra_forbid && strictFields fields
  | .list elem => strictModel elem
  | _ => true

def strictFields : List (String × Bool × Json × PyType) → Bool
  | [] => true
  | (_, required, _, ty) :: rest => required && strictModel ty && strictFields rest

end

/-- A truthy `get`-with-default result is structurally smaller than the dict
(the default `{}` is falsy, so a truthy value came from a lookup). -/
theorem getD_sizeOf_of_truthy {kvs : List (String × Json)} {key : String}
    (h : ¬ truthy ((jget kvs key).getD (.obj [])) = false) :
    sizeOf ((jget kvs key).getD (.obj [])) < sizeOf (Json.obj kvs) := by
  cases hjt : jget kvs key with
  | none => rw [hjt] at h; exact absurd rfl h
  | some v =>
    simp only [Option.getD_some]
    have := jget_sizeOf hjt
    simp
    omega

/-- The entry list of a truthy `properties` dict is structurally smaller than
the enclosing schema node. -/
theorem props_sizeOf_of_getD {kvs props : List (String × Json)} {key : String}
    (h : ¬ truthy ((jget kvs key).getD (.obj [])) = false)
    (hv : (jget kvs key).getD (.obj []) = .obj props) :
    sizeOf props < sizeOf (Json.obj kvs) := by
  have h1 := getD_sizeOf_of_truthy h
  rw [hv] at h1
  simp at h1 ⊢
  omega

/-- Reducing an exceptional bind in the `Except` monad. -/
theorem except_bind_error {α β : Type} (e : String) (f : α → Except String β) :
    (Except.error e : Except String α) >>= f = .error e := rfl

/-- Reducing a successful bind in the `Except` monad. -/
theorem except_bind_ok {α β : Type} (a : α) (f : α → Except String β) :
    (Except.ok a : Except String α) >>= f = f a := rfl

/-- Strict-mode soundness of the compiler, by strong induction on the size of
the schema fragment: every `.ok` result of `resolve_python_type` satisfies
`strictModel`, and every `.ok` field list of `resolve_fields` satisfies
`strictFields`. -/
theorem strict_bundle : ∀ n : Nat,
    (∀ (fi : Json) (hint : String) (t : PyType), sizeOf fi ≤ n →
      resolve_python_type fi hint = .ok t → strictModel t = true) ∧
    (∀ (kvs : List (String × Json)) (pre : String)
      (fs : List (String × Bool × Json × PyType)), sizeOf kvs ≤ n →
      resolve_fields pre kvs = .ok fs → strictFields fs = true) := by
  intro n
  induction n using Nat.strong_induction_on with
  | _ n ih =>
    constructor
    · intro fi hint t hsz hres
      cases fi with
      | null => simp [resolve_python_type] at hres
      | bool b => simp [resolve_python_type] at hres
      | num m => simp [resolve_python_type] at hres
      | str s => simp [resolve_python_type] at hres
      | arr xs => simp [resolve_python_type] at hres
      | obj kvs =>
        simp only [resolve_python_type] at hres
        by_cases ha : jsonEqStr ((jget kvs "type").getD (.str "string")) "array" = true
        · rw [if_pos ha] at hres
          by_cases hi : truthy ((jget kvs "items").getD (.obj [])) = false
          · rw [dif_pos hi] at hres
            injection hres with h
            subst h
            rfl
          · rw [dif_neg hi] at hres
            cases hr : resolve_python_type ((jget kvs "items").getD (.obj []))
                (hint ++ "Item") with
            | error e =>
              rw [hr, except_bind_error] at hres
              exact absurd hres (by simp)
            | ok inner =>
              rw [hr, except_bind_ok] at hres
              injection hres with h
              subst h
              have hszi := getD_sizeOf_of_truthy hi
              have hsmall : sizeOf ((jget kvs "items").getD (.obj [])) < n := by
                simp only [Json.obj.sizeOf_spec] at hszi hsz
                omega
              exact (ih _ hsmall).1 ((jget kvs "items").getD (.obj []))
                (hint ++ "Item") inner (Nat.le_refl _) hr
        · rw [if_neg ha] at hres
          by_cases ho : jsonEqStr ((jget kvs "type").getD (.str "string")) "object" = true
          · rw [if_pos ho] at hres
            by_cases hp : truthy ((jget kvs "properties").getD (.obj [])) = false
            · rw [dif_pos hp] at hres
              injection hres with h
              subst h
              rfl
            · rw [dif_neg hp] at hres
              split at hres
              · rename_i props heq
                cases hr : resolve_fields (hint ++ "_") props with
                | error e =>
                  rw [hr, except_bind_error] at hres
                  exact absurd hres (by simp)
                | ok fs' =>
                  rw [hr, except_bind_ok] at hres
                  injection hres with h
                  subst h
                  have hszp := props_sizeOf_of_getD hp heq
                  have hsmall : sizeOf props < n := by
                    simp only [Json.obj.sizeOf_spec] at hszp hsz
                    omega
                  have hstrict := (ih _ hsmall).2 props (hint ++ "_") fs'
                    (Nat.le_refl _) hr
                  show (true && strictFields fs') = true
                  rw [hstrict]
                  rfl
              · exact absurd hres (by simp)
          · rw [if_neg ho] at hres
            by_cases h1 : jsonEqStr ((jget kvs "type").getD (.str "string")) "string" = true
            · rw [if_pos h1] at hres
              injection hres with h
              subst h
              rfl
            · rw [if_neg h1] at hres
              by_cases h2 : jsonEqStr ((jget kvs "type").getD (.str "string")) "integer" = true
              · rw [if_pos h2] at hres
                injection hres with h
                subst h
                rfl
              · rw [if_neg h2] at hres
                by_cases h3 : jsonEqStr ((jget kvs "type").getD (.str "string")) "number" = true
                · rw [if_pos h3] at hres
                  injection hres with h
                  subst h
                  rfl
                · rw [if_neg h3] at hres
                  by_cases h4 : jsonEqStr ((jget kvs "type").getD (.str "string")) "boolean" = true
                  · rw [if_pos h4] at hres
                    injection hres with h
                    subst h
                    rfl
                  · rw [if_neg h4] at hres
                    cases hjt : (jget kvs "type").getD (.str "string") with
                    | arr ys => rw [hjt] at hres; simp at hres
                    | obj okvs => rw [hjt] at hres; simp at hres
                    | null =>
                      rw [hjt] at hres
                      simp at hres
                      subst hres
                      rfl
                    | bool b =>
                      rw [hjt] at hres
                      simp at hres
                      subst hres
                      rfl
                    | num m =>
                      rw [hjt] at hres
                      simp at hres
                      subst hres
                      rfl
                    | str s2 =>
                      rw [hjt] at hres
                      simp at hres
                      subst hres
                      rfl
    · intro kvs pre fs hsz hres
      cases kvs with
      | nil =>
        simp only [resolve_fields, Except.ok.injEq] at hres
        subst hres
        rfl
      | cons p rest =>
        obtain ⟨n_name, n_info⟩ := p
        have hszc : sizeOf n_info + sizeOf rest < sizeOf ((n_name, n_info) :: rest) := by
          simp
          omega
        have hsza : sizeOf n_info < n := by omega
        have hszb : sizeOf rest < n := by omega
        cases n_info with
        | null => simp [resolve_fields, resolve_python_type, except_bind_error] at hres
        | bool b => simp [resolve_fields, resolve_python_type, except_bind_error] at hres
        | num m => simp [resolve_fields, resolve_python_type, except_bind_error] at hres
        | str s => simp [resolve_fields, resolve_python_type, except_bind_error] at hres
        | arr xs => simp [resolve_fields, resolve_python_type, except_bind_error] at hres
        | obj ikvs =>
          simp only [resolve_fields] at hres
          cases hr1 : resolve_python_type (.obj ikvs) (pre ++ pyCapitalize n_name) with
          | error e =>
            rw [hr1, except_bind_error] at hres
            exact absurd hres (by simp)
          | ok ty =>
            rw [hr1, except_bind_ok] at hres
            cases hr2 : resolve_fields pre rest with
            | error e =>
              rw [hr2, except_bind_error] at hres
              exact absurd hres (by simp)
            | ok fs' =>
              rw [hr2, except_bind_ok] at hres
              injection hres with h
              subst h
              have hty := (ih _ hsza).1 (.obj ikvs) (pre ++ pyCapitalize n_name) ty
                (Nat.le_refl _) hr1
              have hfs := (ih _ hszb).2 rest pre fs' (Nat.le_refl _) hr2
              show (true && strictModel ty && strictFields fs') = true
              rw [hty, hfs]
              rfl

/-- C2: for every input schema, every object (model) node of the compiled
descriptor, at every nesting depth, forbids undeclared additional properties
(`extra="forbid"`) and marks every declared field required, regardless of any
required-list present in the source schema (the compiler never reads a
"required" key). -/
theorem c2_compiled_models_strict (schema : Json) (model_name : String)
    (m : PyType) (h : build_model_from_schema schema model_name = .ok m) :
    strictModel m = true := by
  cases schema with
  | null => simp [build_model_from_schema] at h
  | bool b => simp [build_model_from_schema] at h
  | num n => simp [build_model_from_schema] at h
  | str s => simp [build_model_from_schema] at h
  | arr xs => simp [build_model_from_schema] at h
  | obj skvs =>
    simp only [build_model_from_schema] at h
    split at h
    · rename_i props heq
      cases hr : resolve_fields "" props with
      | error e =>
        rw [hr, except_bind_error] at h
        exact absurd h (by simp)
      | ok fields =>
        rw [hr, except_bind_ok] at h
        injection h with h
        subst h
        have hfs := (strict_bundle (sizeOf props)).2 props "" fields (Nat.le_refl _) hr
        show (true && strictFields fields) = true
        rw [hfs]
        rfl
    · exact absurd h (by simp)

/-- A concrete schema for the C2 witness: one string property, plus a
"required" key (an empty required-list) that the compiler ignores. -/
def witnessSchema : Json :=
  .obj [("properties",
          .obj [("a", .obj [("type", .str "string"),
                            ("description", .str "field a")])]),
        ("required", .arr [])]

/-- Witness for C2 at a concrete input: the compiled model of
`witnessSchema` is closed and its field is required even though the schema's
required-list is empty. -/
theorem c2_compiled_models_strict_witness :
    build_model_from_schema witnessSchema "M" =
      .ok (.model "M" true [("a", true, .str "field a", .str)]) ∧
    strictModel (.model "M" true [("a", true, .str "field a", PyType.str)]) = true := by
  have h : build_model_from_schema witnessSchema "M" =
      .ok (.model "M" true [("a", true, .str "field a", .str)]) := by
    simp [build_model_from_schema, witnessSchema, resolve_fields,
      resolve_python_type, jget, jsonEqStr, truthy, except_bind_ok]
  exact ⟨h, c2_compiled_models_strict witnessSchema "M" _ h⟩

/-- C3 fails as stated: a schema field node with no `type` key resolves to
the string type, not to the unconstrained "any" type, because
`field_info.get("type", "string")` defaults a missing `type` to "string". -/
theorem c3_counterexample :
    jget ([] : List (String × Json)) "type" = none ∧
    resolve_python_type (.obj []) "Hint" = .ok PyType.str ∧
    resolve_python_type (.obj []) "Hint" ≠ .ok PyType.anyT := by
  have h : resolve_python_type (.obj []) "Hint" = .ok PyType.str := by
    simp [resolve_python_type, jget, jsonEqStr]
  refine ⟨rfl, h, ?_⟩
  rw [h]
  simp

/-- C3 amended: a field node whose `type` key is absent resolves to the
string type (the compiler's default), while a field node whose `type` is a
string other than string/integer/number/boolean/object/array resolves to the
unconstrained "any" type without failing. -/
theorem c3_type_fallback_amended (kvs : List (String × Json)) (hint : String) :
    (jget kvs "type" = none → resolve_python_type (.obj kvs) hint = .ok PyType.str) ∧
    (∀ s : String, jget kvs "type" = some (.str s) →
      s ∉ (["string", "integer", "number", "boolean", "object", "array"] : List String) →
      resolve_python_type (.obj kvs) hint = .ok PyType.anyT) := by
  constructor
  · intro h
    simp [resolve_python_type, h, jsonEqStr]
  · intro s hjt hs
    simp only [List.mem_cons, List.not_mem_nil, or_false, not_or] at hs
    obtain ⟨h1, h2, h3, h4, h5, h6⟩ := hs
    simp [resolve_python_type, hjt, jsonEqStr, h1, h2, h3, h4, h5, h6]

/-- Witness for the amended C3 at concrete inputs: a node with no `type` key
compiles to the string type, and a node with `type: "custom"` compiles to
the "any" type. -/
theorem c3_type_fallback_amended_witness :
    (jget ([] : List (String × Json)) "type" = none ∧
     resolve_python_type (.obj []) "H" = .ok PyType.str) ∧
    (jget [("type", Json.str "custom")] "type" = some (.str "custom") ∧
     "custom" ∉ (["string", "integer", "number", "boolean", "object", "array"] : List String) ∧
     resolve_python_type (.obj [("type", .str "custom")]) "H" = .ok PyType.anyT) :=
  ⟨⟨rfl, (c3_type_fallback_amended [] "H").1 rfl⟩,
   ⟨rfl, by decide,
    (c3_type_fallback_amended [("type", .str "custom")] "H").2 "custom" rfl (by decide)⟩⟩

end Doc2Json
